import Mathlib

/-!
Verification of the separation-analysis core of the PGTA project 3 repository.

The Python sources under `functions/` and `models/` are shallowly embedded:
pure functions become Lean functions over `ℚ` (radar data is decimal; the
code only compares the numbers it computes), the transcendental projection
layer is embedded over `ℝ`, and the float special values that matter to the
separation checker are modelled by an explicit `PFloat` type carrying
Python's comparison semantics.  Fallible code returns `Except`/`Option`.
-/

/-- Embedding of `models/DataItems.py` `DataItem`, restricted to the fields
that the separation-analysis functions actually read: `time` (seconds since
midnight), `callsign`, geodetic `lat`/`lon`, projected `x`/`y` and the
QNH-corrected `barometric_altitude` (optional, as in the source). -/
structure DataItem where
  time : ℚ
  callsign : Option String
  lat : ℚ
  lon : ℚ
  x : ℚ
  y : ℚ
  barometric_altitude : Option ℚ
deriving DecidableEq

/-- Embedding of one row of the flight-plan DataFrame as read by
`process_consecutive_pair` (`Indicativo`, `Estela`, `HoraDespegue`; the
remaining columns are only read past the point where execution fails, see
`process_consecutive_pair` below). -/
structure FlightPlanRow where
  Indicativo : String
  Estela : Option String
  HoraDespegue : ℚ
deriving DecidableEq

/-- Result record of `process_consecutive_pair`.  In the source the full
dictionary is never constructed because the call
`check_radar_separation(dist_twr, zone='TWR')` raises `TypeError` first
(the function's parameters are `distance_nm` and `minima_nm`), so only the
identifying fields are modelled here. -/
structure PairResult where
  Callsign_Preceding : String
  Callsign_Following : String
deriving DecidableEq

/-- Python runtime errors that the embedded code can raise. -/
inductive PyErr where
  | typeError
  | valueError
deriving DecidableEq

/-- Python float values as far as `separation_checker.py` observes them: a
finite rational, NaN, or a signed infinity. -/
inductive PFloat where
  | finite (q : ℚ)
  | nan
  | inf
  | ninf
deriving DecidableEq

/-- Python's `<` on floats: any comparison with NaN is false, `-inf` is
below everything else, `+inf` above everything else. -/
def pfLt : PFloat → PFloat → Bool
  | .nan, _ => false
  | _, .nan => false
  | .finite a, .finite b => decide (a < b)
  | .finite _, .inf => true
  | .finite _, .ninf => false
  | .inf, _ => false
  | .ninf, .ninf => false
  | .ninf, _ => true

/-- `constants.MINIMA_RADAR_TWR_NM` (3 NM). -/
def MINIMA_RADAR_TWR_NM : ℚ := 3

/-- `constants.MINIMA_RADAR_TMA_NM` (also 3 NM in the source, despite the
adjacent comment saying 5). -/
def MINIMA_RADAR_TMA_NM : ℚ := 3

/-- `constants.DISTANCIA_INICIAL_CALCULO_NM` (0.5 NM). -/
def DISTANCIA_INICIAL_CALCULO_NM : ℚ := mkRat 1 2

/-- `constants.TOLERANCE_TIME_SECONDS` (1 s). -/
def TOLERANCE_TIME_SECONDS : ℚ := 1

/-- `constants.WAKE_TURBULENCE_SEPARATION`: the wake-turbulence minima
table, keyed by (preceding, following) category. -/
def WAKE_TURBULENCE_SEPARATION : List ((String × String) × ℚ) :=
  [(("SUPER", "HEAVY"), 6),
   (("SUPER", "MEDIUM"), 7),
   (("SUPER", "LIGHT"), 8),
   (("HEAVY", "HEAVY"), 4),
   (("HEAVY", "MEDIUM"), 5),
   (("HEAVY", "LIGHT"), 6),
   (("MEDIUM", "LIGHT"), 5)]

/-- Embedding of `separation_checker.check_radar_separation`.  The source is
`return distance_nm < minima_nm`: a bare float comparison with no input
validation, no raise statement and no zone parameter (its default minimum
even names `constants.MINIMA_RADAR_NM`, which `constants.py` does not
define, and its only caller passes a `zone` keyword it does not accept). -/
def check_radar_separation (distance_nm minima_nm : PFloat) : Bool :=
  pfLt distance_nm minima_nm

/-- Python's `s.upper().strip()` for the ASCII labels the loader produces:
uppercase every character, then drop leading and trailing whitespace. -/
def pyUpperStrip (s : String) : String :=
  String.mk ((((s.data.map Char.toUpper).dropWhile Char.isWhitespace).reverse.dropWhile
    Char.isWhitespace).reverse)

/-- The normalisation applied to each wake input inside
`check_wake_turbulence_separation`:
`preceding_wake.upper().strip() if preceding_wake else ''`
(`None` and the empty string are falsy). -/
def normalize_wake_input (w : Option String) : String :=
  match w with
  | none => ""
  | some s => if s = "" then "" else pyUpperStrip s

/-- Embedding of `separation_checker.check_wake_turbulence_separation`:
normalise both categories, look the ordered pair up in
`WAKE_TURBULENCE_SEPARATION`; a missing key means the rule does not apply
(`(False, None)`), otherwise the violation flag is `distance < required`. -/
def check_wake_turbulence_separation (preceding_wake following_wake : Option String)
    (distance_nm : ℚ) : Bool × Option ℚ :=
  let prec_wake := normalize_wake_input preceding_wake
  let foll_wake := normalize_wake_input following_wake
  match WAKE_TURBULENCE_SEPARATION.lookup (prec_wake, foll_wake) with
  | none => (false, none)
  | some required_separation => (decide (distance_nm < required_separation), some required_separation)

/-- Embedding of `DataItem.is_in_geographic_filter`
(`40.9 <= lat <= 41.7 and 1.5 <= lon <= 2.6`; the bounds are written with
`mkRat`, so 409/10, 417/10, 15/10 and 26/10). -/
def is_in_geographic_filter (d : DataItem) : Bool :=
  decide (mkRat 409 10 ≤ d.lat) && decide (d.lat ≤ mkRat 417 10) &&
  decide (mkRat 15 10 ≤ d.lon) && decide (d.lon ≤ mkRat 26 10)

/-- The altitude condition used inside `calculate_minimum_tma_distance`:
`not d.barometric_altitude or d.barometric_altitude <= 6000`.  In Python a
missing altitude (`None`) and an altitude of exactly `0.0` are both falsy,
so both pass the first disjunct. -/
def tma_altitude_ok (d : DataItem) : Bool :=
  match d.barometric_altitude with
  | none => true
  | some a => decide (a = 0) || decide (a ≤ 6000)

/-- Loop of `find_first_valid_detection`
(`calculate_separations_between_consecutive_departures.py`, lines 59-80).
`prev` carries the Python variable `prev_distance` (initially `None`); the
distance of the current point is obtained from the supplied threshold
distance function `dist2thr`, which stands for the transcendental composite
`calculate_distance_to_threshold` of `geo_utils.py` — the loop itself only
compares the distances that function returns, so it is embedded
parametrically in it. -/
def find_first_valid_aux (dist2thr : ℚ → ℚ → ℚ → ℚ → ℚ)
    (thr_lat thr_lon min_distance_nm : ℚ) :
    Option ℚ → List DataItem → Option DataItem
  | _, [] => none
  | prev, det :: rest =>
    let dist_to_thr := dist2thr det.lat det.lon thr_lat thr_lon
    if min_distance_nm ≤ dist_to_thr then
      match prev with
      | none => find_first_valid_aux dist2thr thr_lat thr_lon min_distance_nm (some dist_to_thr) rest
      | some p =>
        if p < dist_to_thr then some det
        else find_first_valid_aux dist2thr thr_lat thr_lon min_distance_nm (some dist_to_thr) rest
    else find_first_valid_aux dist2thr thr_lat thr_lon min_distance_nm (some dist_to_thr) rest

/-- Embedding of `find_first_valid_detection`: scan the detections in list
order starting with `prev_distance = None` and return the first detection
that satisfies the minimum distance together with the moving-away check. -/
def find_first_valid_detection (dist2thr : ℚ → ℚ → ℚ → ℚ → ℚ)
    (detections : List DataItem) (thr_lat thr_lon : ℚ)
    (min_distance_nm : ℚ := DISTANCIA_INICIAL_CALCULO_NM) : Option DataItem :=
  find_first_valid_aux dist2thr thr_lat thr_lon min_distance_nm none detections

/-- Reference scan over adjacent pairs used to characterise
`find_first_valid_detection`: walking the track with the previous point's
distance `prev` at hand, return the first point whose distance meets the
minimum and strictly exceeds `prev`. -/
def adjScan (v : DataItem → ℚ) (min_d : ℚ) : ℚ → List DataItem → Option DataItem
  | _, [] => none
  | prev, cur :: rest =>
    if min_d ≤ v cur ∧ prev < v cur then some cur else adjScan v min_d (v cur) rest

/-- Loop of `find_concurrent_detection` (lines 99-108).  The accumulator
models the pair `(min_time_diff, best_detection)`, with `none` standing for
the initial `(inf, None)`. -/
def find_concurrent_aux (reference_time max_time_diff : ℚ) :
    Option (ℚ × DataItem) → List DataItem → Option (ℚ × DataItem)
  | acc, [] => acc
  | acc, det :: rest =>
    let time_diff := |det.time - reference_time|
    match acc with
    | none =>
      if time_diff < max_time_diff then
        find_concurrent_aux reference_time max_time_diff (some (time_diff, det)) rest
      else
        find_concurrent_aux reference_time max_time_diff none rest
    | some (m, b) =>
      if time_diff < m ∧ time_diff < max_time_diff then
        find_concurrent_aux reference_time max_time_diff (some (time_diff, det)) rest
      else
        find_concurrent_aux reference_time max_time_diff (some (m, b)) rest

/-- Embedding of `find_concurrent_detection`: the detection closest in time
to `reference_time`, or `None` when every detection is at or beyond the
tolerance (`time_diff < min_time_diff and time_diff < max_time_diff` keeps
the first minimiser in scan order). -/
def find_concurrent_detection (detections : List DataItem)
    (reference_time : ℚ)
    (max_time_diff : ℚ := TOLERANCE_TIME_SECONDS) : Option DataItem :=
  (find_concurrent_aux reference_time max_time_diff none detections).map (fun p => p.2)

/-- Python's `min(d.time for d in detections)` (0 on the empty list, which
the callers never reach: they test emptiness first). -/
def timesMin : List DataItem → ℚ
  | [] => 0
  | h :: t => t.foldl (fun a d => min a d.time) h.time

/-- Python's `max(d.time for d in detections)` (0 on the empty list). -/
def timesMax : List DataItem → ℚ
  | [] => 0
  | h :: t => t.foldl (fun a d => max a d.time) h.time

/-- Embedding of `do_flight_trajectories_overlap` (lines 111-137): false if
either list is empty, otherwise `foll_start < prec_end`. -/
def do_flight_trajectories_overlap
    (preceding_detections following_detections : List DataItem) : Bool :=
  if preceding_detections.isEmpty || following_detections.isEmpty then false
  else decide (timesMin following_detections < timesMax preceding_detections)

/-- Restriction of the following track inside `calculate_minimum_tma_distance`
(line 190): points strictly after `first_valid_time`. -/
def tma_following_restricted (following_detections : List DataItem)
    (first_valid_time : ℚ) : List DataItem :=
  following_detections.filter (fun d => decide (first_valid_time < d.time))

/-- Restriction of the preceding track inside `calculate_minimum_tma_distance`
(lines 202-207): geographic filter, altitude unknown or at most 6000 ft, and
time within `[ws, we]`. -/
def tma_preceding_restricted (preceding_detections : List DataItem)
    (ws we : ℚ) : List DataItem :=
  preceding_detections.filter (fun d =>
    is_in_geographic_filter d && tma_altitude_ok d &&
    decide (ws ≤ d.time) && decide (d.time ≤ we))

/-- Body of the double loop of `calculate_minimum_tma_distance`
(lines 214-225) for one `(prec_det, foll_det)` pair: skip pairs more than
30 s apart, otherwise update the running minimum when the planar distance
strictly improves it.  The accumulator models `(min_distance, min_time)`,
with `none` standing for the initial `(inf, None)`. -/
def tma_pair_step (dist2d : ℚ → ℚ → ℚ → ℚ → ℚ)
    (acc : Option (ℚ × ℚ)) (prec_det foll_det : DataItem) : Option (ℚ × ℚ) :=
  if 30 < |prec_det.time - foll_det.time| then acc
  else
    let dist := dist2d prec_det.x prec_det.y foll_det.x foll_det.y
    match acc with
    | none => some (dist, foll_det.time)
    | some (m, mt) => if dist < m then some (dist, foll_det.time) else some (m, mt)

/-- Embedding of `calculate_minimum_tma_distance` (lines 169-227).  The
result `none` models the source's `(inf, None)` return, i.e. an undefined
TMA distance.  `dist2d` stands for `calculate_distance_2d` on the projected
coordinates; the loop only compares the distances it returns.  The window
bounds are the first and last elements of the restricted following list,
exactly as `following_filtered[0]` / `following_filtered[-1]`. -/
def calculate_minimum_tma_distance (dist2d : ℚ → ℚ → ℚ → ℚ → ℚ)
    (preceding_detections following_detections : List DataItem)
    (first_valid_time : ℚ) : Option (ℚ × ℚ) :=
  match tma_following_restricted following_detections first_valid_time with
  | [] => none
  | f0 :: rest =>
    let foll_time_start := f0.time
    let foll_time_end := (List.getLast (f0 :: rest) (List.cons_ne_nil f0 rest)).time
    let preceding_filtered :=
      tma_preceding_restricted preceding_detections foll_time_start foll_time_end
    if preceding_filtered.isEmpty then none
    else
      (f0 :: rest).foldl
        (fun acc foll_det =>
          preceding_filtered.foldl (fun a prec_det => tma_pair_step dist2d a prec_det foll_det) acc)
        none

/-- Embedding of `process_consecutive_pair` (lines 234-335).  The guards are
modelled exactly as written: missing detections, non-overlapping
trajectories, and a following first time not strictly after the preceding
first time each return `None` (`Except.ok none`).  Once a concurrent
preceding detection is found the source computes `dist_twr` and then calls
`check_radar_separation(dist_twr, zone='TWR')`; that call passes a keyword
argument the function does not accept (its parameters are `distance_nm` and
`minima_nm`), so execution raises `TypeError` there and the remainder of the
function body is unreachable. -/
def process_consecutive_pair (dist2thr dist2d : ℚ → ℚ → ℚ → ℚ → ℚ)
    (preceding following : FlightPlanRow)
    (detections : List (String × List DataItem))
    (thr_lat thr_lon : ℚ) (runway : String) : Except PyErr (Option PairResult) :=
  match detections.lookup preceding.Indicativo, detections.lookup following.Indicativo with
  | some prec_dets, some foll_dets =>
    if do_flight_trajectories_overlap prec_dets foll_dets = false then Except.ok none
    else if timesMin foll_dets ≤ timesMin prec_dets then Except.ok none
    else
      match find_first_valid_detection dist2thr foll_dets thr_lat thr_lon DISTANCIA_INICIAL_CALCULO_NM with
      | none => Except.ok none
      | some first_valid_foll =>
        match find_concurrent_detection prec_dets first_valid_foll.time TOLERANCE_TIME_SECONDS with
        | none => Except.ok none
        | some prec_at_time =>
          let _dist_twr := dist2d prec_at_time.x prec_at_time.y first_valid_foll.x first_valid_foll.y
          Except.error PyErr.typeError
  | _, _ => Except.ok none

/-- Errors raised by `geo_utils.geodetic_to_stereographic` (all three are
`ValueError` in Python, distinguished here by their messages: latitude out
of range, longitude out of range, near-zero projection denominator). -/
inductive GeoError where
  | latOutOfRange
  | lonOutOfRange
  | singularDenominator
deriving DecidableEq

/-- Python's `math.radians`. -/
noncomputable def radians (x : ℝ) : ℝ := x * Real.pi / 180

/-- The projection denominator computed at `geo_utils.py` lines 46-47:
`1 + sin(lat0)sin(lat) + cos(lat0)cos(lat)cos(dlon)` in radians. -/
noncomputable def stereo_denominator (lat lon lat0 lon0 : ℝ) : ℝ :=
  1 + Real.sin (radians lat0) * Real.sin (radians lat) +
    Real.cos (radians lat0) * Real.cos (radians lat) *
      Real.cos (radians lon - radians lon0)

/-- Embedding of `geo_utils.geodetic_to_stereographic`: validate the
latitude and longitude ranges, reject a denominator smaller than `1e-10` in
absolute value, otherwise return the projected coordinates. -/
noncomputable def geodetic_to_stereographic (lat lon lat0 lon0 R : ℝ) :
    Except GeoError (ℝ × ℝ) :=
  if ¬(-90 ≤ lat ∧ lat ≤ 90) then Except.error GeoError.latOutOfRange
  else if ¬(-180 ≤ lon ∧ lon ≤ 180) then Except.error GeoError.lonOutOfRange
  else
    let lat_rad := radians lat
    let lat0_rad := radians lat0
    let dlon := radians lon - radians lon0
    let denominator := stereo_denominator lat lon lat0 lon0
    if |denominator| < 1e-10 then Except.error GeoError.singularDenominator
    else
      let k := 2 * R / denominator
      Except.ok (k * Real.cos lat_rad * Real.sin dlon,
        k * (Real.cos lat0_rad * Real.sin lat_rad -
          Real.sin lat0_rad * Real.cos lat_rad * Real.cos dlon))

/-- Embedding of `geo_utils.calculate_distance_2d`:
`sqrt((x2-x1)**2 + (y2-y1)**2)`. -/
noncomputable def calculate_distance_2d (x1 y1 x2 y2 : ℝ) : ℝ :=
  Real.sqrt ((x2 - x1) ^ 2 + (y2 - y1) ^ 2)

lemma calculate_distance_2d_eq_dist (x1 y1 x2 y2 : ℝ) :
    calculate_distance_2d x1 y1 x2 y2 = dist (⟨x1, y1⟩ : ℂ) (⟨x2, y2⟩ : ℂ) := by
  rw [Complex.dist_eq_re_im]
  show Real.sqrt ((x2 - x1) ^ 2 + (y2 - y1) ^ 2) = Real.sqrt ((x1 - x2) ^ 2 + (y1 - y2) ^ 2)
  congr 1
  ring

/-- C9: `calculate_distance_2d` (the spec's `planar_distance`) is symmetric
and satisfies the triangle inequality for every triple of points in the
projected plane. -/
theorem calculate_distance_2d_symm_triangle (x1 y1 x2 y2 x3 y3 : ℝ) :
    calculate_distance_2d x1 y1 x2 y2 = calculate_distance_2d x2 y2 x1 y1 ∧
    calculate_distance_2d x1 y1 x3 y3 ≤
      calculate_distance_2d x1 y1 x2 y2 + calculate_distance_2d x2 y2 x3 y3 := by
  constructor
  · rw [calculate_distance_2d_eq_dist, calculate_distance_2d_eq_dist, dist_comm]
  · rw [calculate_distance_2d_eq_dist, calculate_distance_2d_eq_dist,
      calculate_distance_2d_eq_dist]
    exact dist_triangle _ _ _

/-- C4 counterexample: `check_radar_separation` does not raise on a
negative, NaN or infinite distance — the body is the bare comparison
`distance_nm < minima_nm`, so on distance −1 it returns the boolean `true`
(−1 < 3), on NaN it returns `false`, and on +infinity it returns `false`,
in each case returning a value where the claim requires an error. -/
theorem check_radar_separation_no_raise_counterexample :
    check_radar_separation (PFloat.finite (-1)) (PFloat.finite MINIMA_RADAR_TWR_NM) = true ∧
    check_radar_separation PFloat.nan (PFloat.finite MINIMA_RADAR_TWR_NM) = false ∧
    check_radar_separation PFloat.inf (PFloat.finite MINIMA_RADAR_TWR_NM) = false := by
  decide

/-- C4 amended: `check_radar_separation` takes a distance and a minimum (it
has no zone parameter) and performs no input validation, so it never
raises: for a finite distance it returns `true` exactly when the distance
is strictly below the minimum (this includes negative distances), for a NaN
or +infinite distance it returns `false`, and the TWR and TMA checks
coincide because both configured minima equal 3 NM. -/
theorem check_radar_separation_behavior (d : ℚ) :
    (check_radar_separation (PFloat.finite d) (PFloat.finite MINIMA_RADAR_TWR_NM) = true ↔
      d < MINIMA_RADAR_TWR_NM) ∧
    check_radar_separation (PFloat.finite d) (PFloat.finite MINIMA_RADAR_TMA_NM) =
      check_radar_separation (PFloat.finite d) (PFloat.finite MINIMA_RADAR_TWR_NM) ∧
    check_radar_separation PFloat.nan (PFloat.finite MINIMA_RADAR_TWR_NM) = false ∧
    check_radar_separation PFloat.inf (PFloat.finite MINIMA_RADAR_TWR_NM) = false := by
  refine ⟨?_, rfl, rfl, rfl⟩
  simp [check_radar_separation, pfLt]

lemma wake_lookup_unknown_left (b : String) :
    WAKE_TURBULENCE_SEPARATION.lookup ("UNKNOWN", b) = none := by
  simp [WAKE_TURBULENCE_SEPARATION, List.lookup, instBEqProd]

lemma wake_lookup_unknown_right (a : String) :
    WAKE_TURBULENCE_SEPARATION.lookup (a, "UNKNOWN") = none := by
  simp [WAKE_TURBULENCE_SEPARATION, List.lookup, instBEqProd]

/-- C7: `check_wake_turbulence_separation` returns `(false, none)` whenever
either normalised category is `UNKNOWN` (no `UNKNOWN` key exists in the
minima table) or the ordered pair is absent from the table; otherwise it
returns the table's required separation and flags a violation exactly when
the distance is strictly below it. -/
theorem check_wake_turbulence_separation_spec (pw fw : Option String) (d : ℚ) :
    ((normalize_wake_input pw = "UNKNOWN" ∨ normalize_wake_input fw = "UNKNOWN") →
      check_wake_turbulence_separation pw fw d = (false, none)) ∧
    (WAKE_TURBULENCE_SEPARATION.lookup (normalize_wake_input pw, normalize_wake_input fw) = none →
      check_wake_turbulence_separation pw fw d = (false, none)) ∧
    (∀ r, WAKE_TURBULENCE_SEPARATION.lookup
        (normalize_wake_input pw, normalize_wake_input fw) = some r →
      check_wake_turbulence_separation pw fw d = (decide (d < r), some r)) := by
  refine ⟨?_, ?_, ?_⟩
  · rintro (h | h)
    · simp [check_wake_turbulence_separation, h, wake_lookup_unknown_left]
    · simp [check_wake_turbulence_separation, h, wake_lookup_unknown_right]
  · intro h
    simp [check_wake_turbulence_separation, h]
  · intro r h
    simp [check_wake_turbulence_separation, h]

/-- C7 witness: at the concrete inputs `"unknown"` (which normalises to
`UNKNOWN`) and `"Heavy"`, the rule does not apply. -/
theorem check_wake_turbulence_separation_spec_witness :
    (normalize_wake_input (some "unknown") = "UNKNOWN" ∨
      normalize_wake_input (some "Heavy") = "UNKNOWN") ∧
    check_wake_turbulence_separation (some "unknown") (some "Heavy") 5 = (false, none) :=
  ⟨Or.inl (by decide),
    (check_wake_turbulence_separation_spec (some "unknown") (some "Heavy") 5).1
      (Or.inl (by decide))⟩

/-- C8: `geodetic_to_stereographic` raises when the latitude or longitude is
out of range, raises when the projection denominator is below `1e-10` in
absolute value, and in every other case returns projected coordinates
(it never raises when the latitude, longitude and denominator are all
admissible). -/
theorem geodetic_to_stereographic_spec (lat lon lat0 lon0 R : ℝ) :
    (90 < |lat| →
      geodetic_to_stereographic lat lon lat0 lon0 R = Except.error GeoError.latOutOfRange) ∧
    (|lat| ≤ 90 → 180 < |lon| →
      geodetic_to_stereographic lat lon lat0 lon0 R = Except.error GeoError.lonOutOfRange) ∧
    (|lat| ≤ 90 → |lon| ≤ 180 → |stereo_denominator lat lon lat0 lon0| < 1e-10 →
      geodetic_to_stereographic lat lon lat0 lon0 R = Except.error GeoError.singularDenominator) ∧
    (|lat| ≤ 90 → |lon| ≤ 180 → 1e-10 ≤ |stereo_denominator lat lon lat0 lon0| →
      ∃ p, geodetic_to_stereographic lat lon lat0 lon0 R = Except.ok p) := by
  refine ⟨?_, ?_, ?_, ?_⟩
  · intro h
    have h1 : ¬(-90 ≤ lat ∧ lat ≤ 90) := by
      rw [← abs_le]
      exact not_le.mpr h
    simp only [geodetic_to_stereographic, if_pos h1]
  · intro hlat hlon
    have h1 : ¬¬(-90 ≤ lat ∧ lat ≤ 90) := not_not_intro (abs_le.mp hlat)
    have h2 : ¬(-180 ≤ lon ∧ lon ≤ 180) := by
      rw [← abs_le]
      exact not_le.mpr hlon
    simp only [geodetic_to_stereographic, if_neg h1, if_pos h2]
  · intro hlat hlon hden
    have h1 : ¬¬(-90 ≤ lat ∧ lat ≤ 90) := not_not_intro (abs_le.mp hlat)
    have h2 : ¬¬(-180 ≤ lon ∧ lon ≤ 180) := not_not_intro (abs_le.mp hlon)
    simp only [geodetic_to_stereographic, if_neg h1, if_neg h2, if_pos hden]
  · intro hlat hlon hden
    have h1 : ¬¬(-90 ≤ lat ∧ lat ≤ 90) := not_not_intro (abs_le.mp hlat)
    have h2 : ¬¬(-180 ≤ lon ∧ lon ≤ 180) := not_not_intro (abs_le.mp hlon)
    have h3 : ¬(|stereo_denominator lat lon lat0 lon0| < 1e-10) := not_lt.mpr hden
    simp only [geodetic_to_stereographic, if_neg h1, if_neg h2, if_neg h3]
    exact ⟨_, rfl⟩

/-- C8 witness: at the projection centre itself (latitude and longitude 0
against centre 0, unit radius) the denominator is 2, so the projection
returns coordinates. -/
theorem geodetic_to_stereographic_spec_witness :
    |(0 : ℝ)| ≤ 90 ∧ (1e-10 : ℝ) ≤ |stereo_denominator 0 0 0 0| ∧
    ∃ p, geodetic_to_stereographic 0 0 0 0 1 = Except.ok p := by
  have hd : stereo_denominator 0 0 0 0 = 2 := by
    simp [stereo_denominator, radians]
    norm_num
  refine ⟨by norm_num, by rw [hd]; norm_num, ?_⟩
  exact (geodetic_to_stereographic_spec 0 0 0 0 1).2.2.2 (by norm_num) (by norm_num)
    (by rw [hd]; norm_num)

lemma find_first_valid_aux_none_step (d : ℚ → ℚ → ℚ → ℚ → ℚ)
    (tla tlo m : ℚ) (det : DataItem) (rest : List DataItem) :
    find_first_valid_aux d tla tlo m none (det :: rest) =
      find_first_valid_aux d tla tlo m (some (d det.lat det.lon tla tlo)) rest := by
  simp only [find_first_valid_aux]
  split <;> rfl

lemma find_first_valid_aux_some_eq_adjScan (d : ℚ → ℚ → ℚ → ℚ → ℚ)
    (tla tlo m : ℚ) :
    ∀ (l : List DataItem) (p : ℚ),
      find_first_valid_aux d tla tlo m (some p) l =
        adjScan (fun det => d det.lat det.lon tla tlo) m p l := by
  intro l
  induction l with
  | nil => intro p; rfl
  | cons cur rest ih =>
    intro p
    simp only [find_first_valid_aux, adjScan]
    by_cases h1 : m ≤ d cur.lat cur.lon tla tlo
    · by_cases h2 : p < d cur.lat cur.lon tla tlo
      · rw [if_pos h1, if_pos h2, if_pos ⟨h1, h2⟩]
      · rw [if_pos h1, if_neg h2, if_neg (fun hc => h2 hc.2), ih]
    · rw [if_neg h1, if_neg (fun hc => h1 hc.1), ih]

lemma find_first_valid_detection_nil (d : ℚ → ℚ → ℚ → ℚ → ℚ) (tla tlo m : ℚ) :
    find_first_valid_detection d [] tla tlo m = none := rfl

lemma find_first_valid_detection_cons (d : ℚ → ℚ → ℚ → ℚ → ℚ)
    (tla tlo m : ℚ) (h : DataItem) (t : List DataItem) :
    find_first_valid_detection d (h :: t) tla tlo m =
      adjScan (fun det => d det.lat det.lon tla tlo) m (d h.lat h.lon tla tlo) t := by
  unfold find_first_valid_detection
  rw [find_first_valid_aux_none_step, find_first_valid_aux_some_eq_adjScan]

/-- C1 (amended): for a track with zero or one point,
`find_first_valid_detection` (a total function in this embedding, so it
cannot raise) always returns nothing: the first iteration only records the
point's distance as the `prev_distance` baseline and continues, so even a
single point meeting the minimum distance is never returned. -/
theorem find_first_valid_detection_short_track (dist2thr : ℚ → ℚ → ℚ → ℚ → ℚ)
    (detections : List DataItem) (thr_lat thr_lon min_d : ℚ)
    (h : detections.length ≤ 1) :
    find_first_valid_detection dist2thr detections thr_lat thr_lon min_d = none := by
  match detections with
  | [] => rfl
  | [a] => rw [find_first_valid_detection_cons]; rfl
  | a :: b :: t => simp at h

/-- Concrete stand-in for the abstracted threshold-distance oracle used in
witnesses and counterexamples: the distance of a detection is just its
`lat` field. -/
def distLat : ℚ → ℚ → ℚ → ℚ → ℚ := fun la _ _ _ => la

/-- Builder for concrete detections whose only relevant data are a time and
a `lat` value (read back by `distLat`). -/
def mkDet (t la : ℚ) : DataItem := ⟨t, none, la, 2, 0, 0, none⟩

/-- C1 witness. -/
theorem find_first_valid_detection_short_track_witness :
    ([mkDet 100 3] : List DataItem).length ≤ 1 ∧
    find_first_valid_detection distLat [mkDet 100 3] 0 0 1 = none :=
  ⟨by decide,
    find_first_valid_detection_short_track distLat [mkDet 100 3] 0 0 1 (by decide)⟩

/-- C1 counterexample: a one-point track whose single point lies 3 NM from
the reference — at least the 1 NM minimum passed in — still yields `none`,
against the claim that a qualifying single point is returned. -/
theorem find_first_valid_detection_one_point_counterexample :
    (1 : ℚ) ≤ distLat (mkDet 100 3).lat (mkDet 100 3).lon 0 0 ∧
    find_first_valid_detection distLat [mkDet 100 3] 0 0 1 = none := by
  decide

lemma adjScan_of_lt_chain (v : DataItem → ℚ) (m : ℚ) :
    ∀ (l : List DataItem) (p : ℚ),
      (∀ hd ∈ l.head?, p < v hd) →
      l.Chain' (fun a b => v a < v b) →
      adjScan v m p l = l.find? (fun de => decide (m ≤ v de)) := by
  intro l
  induction l with
  | nil => intro p _ _; rfl
  | cons c rest ih =>
    intro p hp hchain
    have hpc : p < v c := hp c rfl
    obtain ⟨hhead, htail⟩ := List.chain'_cons'.mp hchain
    simp only [adjScan, List.find?]
    by_cases hm : m ≤ v c
    · rw [if_pos ⟨hm, hpc⟩, decide_eq_true hm]
    · rw [if_neg (fun hc => hm hc.1), decide_eq_false hm]
      exact ih (v c) hhead htail

/-- C2 (amended): for a track whose distances to the reference are strictly
increasing in time order, `find_first_valid_detection` returns the first
point strictly after the track's first point whose distance meets the
minimum; the track's very first point is never returned, so when it is the
first qualifying one the second point is returned instead, and a one-point
track yields nothing. -/
theorem find_first_valid_detection_strict_mono (dist2thr : ℚ → ℚ → ℚ → ℚ → ℚ)
    (detections : List DataItem) (thr_lat thr_lon min_d : ℚ)
    (hmono : detections.Chain' (fun a b =>
      dist2thr a.lat a.lon thr_lat thr_lon < dist2thr b.lat b.lon thr_lat thr_lon)) :
    find_first_valid_detection dist2thr detections thr_lat thr_lon min_d =
      detections.tail.find?
        (fun de => decide (min_d ≤ dist2thr de.lat de.lon thr_lat thr_lon)) := by
  match detections with
  | [] => rfl
  | h :: t =>
    rw [find_first_valid_detection_cons]
    obtain ⟨hhead, htail⟩ := List.chain'_cons'.mp hmono
    exact adjScan_of_lt_chain _ min_d t _ hhead htail

/-- C2 witness. -/
theorem find_first_valid_detection_strict_mono_witness :
    List.Chain' (fun a b : DataItem => distLat a.lat a.lon 0 0 < distLat b.lat b.lon 0 0)
      [mkDet 100 1, mkDet 104 2] ∧
    find_first_valid_detection distLat [mkDet 100 1, mkDet 104 2] 0 0 1 =
      ([mkDet 100 1, mkDet 104 2] : List DataItem).tail.find?
        (fun de => decide ((1 : ℚ) ≤ distLat de.lat de.lon 0 0)) :=
  ⟨List.chain'_pair.mpr (by decide),
    find_first_valid_detection_strict_mono distLat [mkDet 100 1, mkDet 104 2] 0 0 1
      (List.chain'_pair.mpr (by decide))⟩

/-- C2 counterexample: distances 1 then 2 (strictly increasing), minimum
1 — the very first point already qualifies, yet the function returns the
second point, not the first. -/
theorem find_first_valid_detection_strict_mono_counterexample :
    (1 : ℚ) ≤ distLat (mkDet 200 1).lat (mkDet 200 1).lon 0 0 ∧
    distLat (mkDet 200 1).lat (mkDet 200 1).lon 0 0 <
      distLat (mkDet 204 2).lat (mkDet 204 2).lon 0 0 ∧
    find_first_valid_detection distLat [mkDet 200 1, mkDet 204 2] 0 0 1 =
      some (mkDet 204 2) ∧
    mkDet 204 2 ≠ mkDet 200 1 := by
  decide

lemma adjScan_none_of_no_step (v : DataItem → ℚ) (m : ℚ) :
    ∀ (l : List DataItem) (p : ℚ),
      (∀ hd ∈ l.head?, ¬(m ≤ v hd ∧ p < v hd)) →
      l.Chain' (fun a b => ¬(m ≤ v b ∧ v a < v b)) →
      adjScan v m p l = none := by
  intro l
  induction l with
  | nil => intro p _ _; rfl
  | cons c rest ih =>
    intro p hp hchain
    obtain ⟨hhead, htail⟩ := List.chain'_cons'.mp hchain
    simp only [adjScan]
    rw [if_neg (hp c rfl)]
    exact ih (v c) hhead htail

/-- C3 (amended): when no point both meets the minimum distance and is
strictly farther from the reference than its immediately preceding point,
`find_first_valid_detection` returns nothing — there is no fallback to the
first point meeting the minimum-distance condition alone. -/
theorem find_first_valid_detection_no_outbound_none (dist2thr : ℚ → ℚ → ℚ → ℚ → ℚ)
    (detections : List DataItem) (thr_lat thr_lon min_d : ℚ)
    (h : detections.Chain' (fun a b =>
      ¬(min_d ≤ dist2thr b.lat b.lon thr_lat thr_lon ∧
        dist2thr a.lat a.lon thr_lat thr_lon < dist2thr b.lat b.lon thr_lat thr_lon))) :
    find_first_valid_detection dist2thr detections thr_lat thr_lon min_d = none := by
  match detections with
  | [] => rfl
  | hd :: t =>
    rw [find_first_valid_detection_cons]
    obtain ⟨hhead, htail⟩ := List.chain'_cons'.mp h
    exact adjScan_none_of_no_step _ min_d t _ hhead htail

/-- C3 witness. -/
theorem find_first_valid_detection_no_outbound_none_witness :
    List.Chain' (fun a b : DataItem =>
      ¬((1 : ℚ) ≤ distLat b.lat b.lon 0 0 ∧
        distLat a.lat a.lon 0 0 < distLat b.lat b.lon 0 0))
      [mkDet 300 2, mkDet 304 1] ∧
    find_first_valid_detection distLat [mkDet 300 2, mkDet 304 1] 0 0 1 = none :=
  ⟨List.chain'_pair.mpr (by decide),
    find_first_valid_detection_no_outbound_none distLat [mkDet 300 2, mkDet 304 1] 0 0 1
      (List.chain'_pair.mpr (by decide))⟩

/-- C3 counterexample: a two-point track with distances 2 then 1 — both
points meet the 1 NM minimum but neither is moving away from the
reference — yields `none` instead of falling back to the first point that
meets the minimum-distance condition alone. -/
theorem find_first_valid_detection_no_fallback_counterexample :
    (1 : ℚ) ≤ distLat (mkDet 310 2).lat (mkDet 310 2).lon 0 0 ∧
    (1 : ℚ) ≤ distLat (mkDet 314 1).lat (mkDet 314 1).lon 0 0 ∧
    ¬(distLat (mkDet 310 2).lat (mkDet 310 2).lon 0 0 <
      distLat (mkDet 314 1).lat (mkDet 314 1).lon 0 0) ∧
    find_first_valid_detection distLat [mkDet 310 2, mkDet 314 1] 0 0 1 = none := by
  decide

lemma find_concurrent_aux_inv (rt mtd : ℚ) :
    ∀ (l : List DataItem) (acc : Option (ℚ × DataItem)),
      (∀ m b, acc = some (m, b) → m < mtd ∧ m = |b.time - rt|) →
      ∀ m b, find_concurrent_aux rt mtd acc l = some (m, b) →
        m < mtd ∧ m = |b.time - rt| := by
  intro l
  induction l with
  | nil => intro acc hacc m b h; exact hacc m b h
  | cons det rest ih =>
    intro acc hacc m b h
    rcases acc with _ | ⟨mm, bb⟩
    · simp only [find_concurrent_aux] at h
      by_cases hc : |det.time - rt| < mtd
      · rw [if_pos hc] at h
        refine ih (some (|det.time - rt|, det)) ?_ m b h
        rintro m2 b2 ⟨rfl, rfl⟩
        exact ⟨hc, rfl⟩
      · rw [if_neg hc] at h
        exact ih none (by rintro m2 b2 ⟨⟩) m b h
    · simp only [find_concurrent_aux] at h
      by_cases hc : |det.time - rt| < mm ∧ |det.time - rt| < mtd
      · rw [if_pos hc] at h
        refine ih (some (|det.time - rt|, det)) ?_ m b h
        rintro m2 b2 ⟨rfl, rfl⟩
        exact ⟨hc.2, rfl⟩
      · rw [if_neg hc] at h
        exact ih (some (mm, bb)) hacc m b h

lemma find_concurrent_aux_all_far (rt mtd : ℚ) :
    ∀ (l : List DataItem), (∀ d ∈ l, mtd ≤ |d.time - rt|) →
      find_concurrent_aux rt mtd none l = none := by
  intro l
  induction l with
  | nil => intro _; rfl
  | cons det rest ih =>
    intro hall
    simp only [find_concurrent_aux]
    rw [if_neg (not_lt.mpr (hall det (List.mem_cons_self det rest)))]
    exact ih (fun d hd => hall d (List.mem_cons_of_mem det hd))

/-- C10: `find_concurrent_detection` applies a strictly-less-than tolerance
bound: any returned point is strictly closer in time than `max_time_diff`
to the reference (so a detection lying exactly at the tolerance boundary is
never returned), and when every point is at or beyond the tolerance it
returns nothing. -/
theorem find_concurrent_detection_strict_tolerance
    (detections : List DataItem) (reference_time max_time_diff : ℚ) :
    (∀ d, find_concurrent_detection detections reference_time max_time_diff = some d →
      |d.time - reference_time| < max_time_diff) ∧
    ((∀ d ∈ detections, max_time_diff ≤ |d.time - reference_time|) →
      find_concurrent_detection detections reference_time max_time_diff = none) := by
  constructor
  · intro d h
    unfold find_concurrent_detection at h
    rcases haux : find_concurrent_aux reference_time max_time_diff none detections with _ | ⟨m, b⟩
    · rw [haux] at h
      cases h
    · rw [haux] at h
      obtain ⟨hm, hmeq⟩ :=
        find_concurrent_aux_inv reference_time max_time_diff detections none
          (by rintro m2 b2 ⟨⟩) m b haux
      have hb : b = d := by simpa using h
      subst hb
      rw [← hmeq]
      exact hm
  · intro hall
    unfold find_concurrent_detection
    rw [find_concurrent_aux_all_far reference_time max_time_diff detections hall]
    rfl

/-- C10 witness: with a reference time 5 and tolerance 1, a detection at
time 6 sits exactly at the boundary and is not returned. -/
theorem find_concurrent_detection_strict_tolerance_witness :
    (∀ d ∈ ([mkDet 6 1] : List DataItem), (1 : ℚ) ≤ |d.time - 5|) ∧
    find_concurrent_detection [mkDet 6 1] 5 1 = none :=
  ⟨by
    intro d hd
    simp only [List.mem_singleton] at hd
    subst hd
    norm_num [mkDet],
    (find_concurrent_detection_strict_tolerance [mkDet 6 1] 5 1).2 (by
      intro d hd
      simp only [List.mem_singleton] at hd
      subst hd
      norm_num [mkDet])⟩

/-- C6: for a pair of departures whose tracks do not overlap in time
(following earliest time at or after preceding latest time),
`process_consecutive_pair` returns `None` — no result record, not a
placeholder — and it likewise returns `None` when the following track's
earliest time is not strictly after the preceding track's earliest time. -/
theorem process_consecutive_pair_no_overlap_none
    (dist2thr dist2d : ℚ → ℚ → ℚ → ℚ → ℚ) (preceding following : FlightPlanRow)
    (detections : List (String × List DataItem)) (thr_lat thr_lon : ℚ) (runway : String)
    (prec_dets foll_dets : List DataItem)
    (hp : detections.lookup preceding.Indicativo = some prec_dets)
    (hf : detections.lookup following.Indicativo = some foll_dets) :
    (timesMax prec_dets ≤ timesMin foll_dets →
      process_consecutive_pair dist2thr dist2d preceding following detections
        thr_lat thr_lon runway = Except.ok none) ∧
    (timesMin foll_dets ≤ timesMin prec_dets →
      process_consecutive_pair dist2thr dist2d preceding following detections
        thr_lat thr_lon runway = Except.ok none) := by
  constructor
  · intro h
    have hov : do_flight_trajectories_overlap prec_dets foll_dets = false := by
      unfold do_flight_trajectories_overlap
      by_cases he : prec_dets.isEmpty || foll_dets.isEmpty
      · rw [if_pos he]
      · rw [if_neg he]
        exact decide_eq_false (not_lt.mpr h)
    simp only [process_consecutive_pair, hp, hf, hov]
    simp
  · intro h
    cases hov : do_flight_trajectories_overlap prec_dets foll_dets
    · simp only [process_consecutive_pair, hp, hf, hov]
      simp
    · simp only [process_consecutive_pair, hp, hf, hov]
      simp [h]

/-- C6 witness: the preceding track spans times 10–20 and the following
track starts at 30, so the spans do not overlap and the pair yields no
result. -/
theorem process_consecutive_pair_no_overlap_none_witness :
    timesMax [mkDet 10 1, mkDet 20 1] ≤ timesMin [mkDet 30 1] ∧
    process_consecutive_pair distLat distLat ⟨"AAA", none, 0⟩ ⟨"BBB", none, 0⟩
      [("AAA", [mkDet 10 1, mkDet 20 1]), ("BBB", [mkDet 30 1])] 0 0 "24L" =
      Except.ok none :=
  ⟨by decide,
    (process_consecutive_pair_no_overlap_none distLat distLat ⟨"AAA", none, 0⟩ ⟨"BBB", none, 0⟩
      [("AAA", [mkDet 10 1, mkDet 20 1]), ("BBB", [mkDet 30 1])] 0 0 "24L"
      [mkDet 10 1, mkDet 20 1] [mkDet 30 1] rfl rfl).1 (by decide)⟩

lemma tma_pair_step_none_iff (dist2d : ℚ → ℚ → ℚ → ℚ → ℚ)
    (acc : Option (ℚ × ℚ)) (pd fd : DataItem) :
    tma_pair_step dist2d acc pd fd = none ↔
      acc = none ∧ 30 < |pd.time - fd.time| := by
  by_cases hc : 30 < |pd.time - fd.time|
  · simp [tma_pair_step, hc]
  · rcases acc with _ | ⟨m, mt⟩
    · simp [tma_pair_step, hc]
    · by_cases hd2 : dist2d pd.x pd.y fd.x fd.y < m
      · simp [tma_pair_step, hc, hd2]
      · simp [tma_pair_step, hc, hd2]

lemma tma_fold_none_iff (dist2d : ℚ → ℚ → ℚ → ℚ → ℚ) :
    ∀ (L : List (DataItem × DataItem)) (acc : Option (ℚ × ℚ)),
      L.foldl (fun a pr => tma_pair_step dist2d a pr.1 pr.2) acc = none ↔
        acc = none ∧ ∀ pr ∈ L, 30 < |pr.1.time - pr.2.time| := by
  intro L
  induction L with
  | nil => intro acc; simp
  | cons pr rest ih =>
    intro acc
    rw [List.foldl_cons, ih, tma_pair_step_none_iff]
    constructor
    · rintro ⟨⟨hacc, hpr⟩, hrest⟩
      refine ⟨hacc, fun q hq => ?_⟩
      rcases List.mem_cons.mp hq with rfl | hq2
      · exact hpr
      · exact hrest q hq2
    · rintro ⟨hacc, hall⟩
      exact ⟨⟨hacc, hall pr (List.mem_cons_self pr rest)⟩,
        fun q hq => hall q (List.mem_cons_of_mem pr hq)⟩

lemma tma_pair_step_some_le (dist2d : ℚ → ℚ → ℚ → ℚ → ℚ)
    (m0 t0 : ℚ) (pd fd : DataItem) :
    ∃ m t, tma_pair_step dist2d (some (m0, t0)) pd fd = some (m, t) ∧ m ≤ m0 := by
  by_cases hc : 30 < |pd.time - fd.time|
  · exact ⟨m0, t0, by simp [tma_pair_step, hc], le_refl m0⟩
  · by_cases hd2 : dist2d pd.x pd.y fd.x fd.y < m0
    · exact ⟨dist2d pd.x pd.y fd.x fd.y, fd.time,
        by simp [tma_pair_step, hc, hd2], le_of_lt hd2⟩
    · exact ⟨m0, t0, by simp [tma_pair_step, hc, hd2], le_refl m0⟩

lemma tma_fold_some_le (dist2d : ℚ → ℚ → ℚ → ℚ → ℚ) :
    ∀ (L : List (DataItem × DataItem)) (m0 t0 : ℚ),
      ∃ m t, L.foldl (fun a pr => tma_pair_step dist2d a pr.1 pr.2) (some (m0, t0)) =
          some (m, t) ∧ m ≤ m0 := by
  intro L
  induction L with
  | nil => intro m0 t0; exact ⟨m0, t0, rfl, le_refl m0⟩
  | cons pr rest ih =>
    intro m0 t0
    obtain ⟨m1, t1, hstep, hle1⟩ := tma_pair_step_some_le dist2d m0 t0 pr.1 pr.2
    obtain ⟨m, t, hfold, hle⟩ := ih m1 t1
    refine ⟨m, t, ?_, le_trans hle hle1⟩
    rw [List.foldl_cons, hstep]
    exact hfold

lemma tma_pair_step_le_dist (dist2d : ℚ → ℚ → ℚ → ℚ → ℚ)
    (acc : Option (ℚ × ℚ)) (pd fd : DataItem)
    (hv : ¬(30 < |pd.time - fd.time|)) :
    ∃ m t, tma_pair_step dist2d acc pd fd = some (m, t) ∧
      m ≤ dist2d pd.x pd.y fd.x fd.y := by
  rcases acc with _ | ⟨m0, t0⟩
  · exact ⟨dist2d pd.x pd.y fd.x fd.y, fd.time,
      by simp [tma_pair_step, hv], le_refl _⟩
  · by_cases hd2 : dist2d pd.x pd.y fd.x fd.y < m0
    · exact ⟨dist2d pd.x pd.y fd.x fd.y, fd.time,
        by simp [tma_pair_step, hv, hd2], le_refl _⟩
    · exact ⟨m0, t0, by simp [tma_pair_step, hv, hd2], not_lt.mp hd2⟩

lemma tma_fold_le_valid (dist2d : ℚ → ℚ → ℚ → ℚ → ℚ) :
    ∀ (L : List (DataItem × DataItem)) (acc : Option (ℚ × ℚ)) (m t : ℚ),
      L.foldl (fun a pr => tma_pair_step dist2d a pr.1 pr.2) acc = some (m, t) →
      ∀ pr ∈ L, ¬(30 < |pr.1.time - pr.2.time|) →
        m ≤ dist2d pr.1.x pr.1.y pr.2.x pr.2.y := by
  intro L
  induction L with
  | nil =>
    intro acc m t _ pr hpr
    simp at hpr
  | cons pr0 rest ih =>
    intro acc m t hfold pr hpr hv
    rw [List.foldl_cons] at hfold
    rcases List.mem_cons.mp hpr with rfl | hmem
    · obtain ⟨m1, t1, hstep, hle⟩ := tma_pair_step_le_dist dist2d acc pr.1 pr.2 hv
      rw [hstep] at hfold
      obtain ⟨m2, t2, hfold2, hle2⟩ := tma_fold_some_le dist2d rest m1 t1
      rw [hfold2] at hfold
      have hmm : m2 = m ∧ t2 = t := by simpa using hfold
      obtain ⟨rfl, rfl⟩ := hmm
      exact le_trans hle2 hle
    · exact ih (tma_pair_step dist2d acc pr0.1 pr0.2) m t hfold pr hmem hv

lemma tma_fold_attained (dist2d : ℚ → ℚ → ℚ → ℚ → ℚ) :
    ∀ (L : List (DataItem × DataItem)) (acc : Option (ℚ × ℚ)) (m t : ℚ),
      L.foldl (fun a pr => tma_pair_step dist2d a pr.1 pr.2) acc = some (m, t) →
      acc = some (m, t) ∨
        ∃ pr ∈ L, ¬(30 < |pr.1.time - pr.2.time|) ∧
          dist2d pr.1.x pr.1.y pr.2.x pr.2.y = m ∧ t = pr.2.time := by
  intro L
  induction L with
  | nil => intro acc m t h; exact Or.inl h
  | cons pr0 rest ih =>
    intro acc m t hfold
    rw [List.foldl_cons] at hfold
    rcases ih _ m t hfold with hstep | ⟨pr, hpr, hv, hd2, ht⟩
    · by_cases hc : 30 < |pr0.1.time - pr0.2.time|
      · left
        simpa [tma_pair_step, hc] using hstep
      · rcases acc with _ | ⟨m0, t0⟩
        · right
          simp only [tma_pair_step, if_neg hc] at hstep
          have hp : dist2d pr0.1.x pr0.1.y pr0.2.x pr0.2.y = m ∧ pr0.2.time = t := by
            simpa using hstep
          exact ⟨pr0, List.mem_cons_self pr0 rest, hc, hp.1, hp.2.symm⟩
        · by_cases hd0 : dist2d pr0.1.x pr0.1.y pr0.2.x pr0.2.y < m0
          · right
            simp only [tma_pair_step, if_neg hc, if_pos hd0] at hstep
            have hp : dist2d pr0.1.x pr0.1.y pr0.2.x pr0.2.y = m ∧ pr0.2.time = t := by
              simpa using hstep
            exact ⟨pr0, List.mem_cons_self pr0 rest, hc, hp.1, hp.2.symm⟩
          · left
            simp only [tma_pair_step, if_neg hc, if_neg hd0] at hstep
            exact hstep
    · exact Or.inr ⟨pr, List.mem_cons_of_mem pr0 hpr, hv, hd2, ht⟩

lemma tma_double_fold_eq_pairs (dist2d : ℚ → ℚ → ℚ → ℚ → ℚ) (pf : List DataItem) :
    ∀ (ff : List DataItem) (acc : Option (ℚ × ℚ)),
      ff.foldl (fun acc2 fd => pf.foldl (fun a pd => tma_pair_step dist2d a pd fd) acc2) acc =
      (ff.flatMap (fun fd => pf.map (fun pd => (pd, fd)))).foldl
        (fun a pr => tma_pair_step dist2d a pr.1 pr.2) acc := by
  intro ff
  induction ff with
  | nil => intro acc; rfl
  | cons fd rest ih =>
    intro acc
    rw [List.foldl_cons, List.flatMap_cons, List.foldl_append, List.foldl_map, ih]

lemma mem_tma_pairs (pf ff : List DataItem) (pd fd : DataItem) :
    (pd, fd) ∈ ff.flatMap (fun fd2 => pf.map (fun pd2 => (pd2, fd2))) ↔
      pd ∈ pf ∧ fd ∈ ff := by
  constructor
  · intro h
    obtain ⟨fd2, hfd2, hmem⟩ := List.mem_flatMap.mp h
    obtain ⟨pd2, hpd2, heq⟩ := List.mem_map.mp hmem
    cases heq
    exact ⟨hpd2, hfd2⟩
  · rintro ⟨hpd, hfd⟩
    exact List.mem_flatMap.mpr ⟨fd, hfd, List.mem_map.mpr ⟨pd, hpd, rfl⟩⟩

lemma foldl_min_const (rest : List DataItem) :
    ∀ (a : ℚ), (∀ d ∈ rest, a ≤ d.time) →
      rest.foldl (fun x d => min x d.time) a = a := by
  induction rest with
  | nil => intro a _; rfl
  | cons d rest2 ih =>
    intro a h
    rw [List.foldl_cons, min_eq_left (h d (List.mem_cons_self d rest2))]
    exact ih a (fun d2 hd2 => h d2 (List.mem_cons_of_mem d hd2))

lemma timesMin_sorted_head (f0 : DataItem) (rest : List DataItem)
    (hs : (f0 :: rest).Pairwise (fun a b : DataItem => a.time ≤ b.time)) :
    timesMin (f0 :: rest) = f0.time := by
  unfold timesMin
  exact foldl_min_const rest f0.time (List.pairwise_cons.mp hs).1

lemma timesMax_sorted_getLast :
    ∀ (rest : List DataItem) (f0 : DataItem),
      (f0 :: rest).Pairwise (fun a b : DataItem => a.time ≤ b.time) →
      timesMax (f0 :: rest) =
        (List.getLast (f0 :: rest) (List.cons_ne_nil f0 rest)).time := by
  intro rest
  induction rest with
  | nil => intro f0 _; rfl
  | cons d rest2 ih =>
    intro f0 hs
    have h01 : f0.time ≤ d.time :=
      (List.pairwise_cons.mp hs).1 d (List.mem_cons_self d rest2)
    have htail := (List.pairwise_cons.mp hs).2
    have hstep := ih d htail
    have e1 : timesMax (f0 :: d :: rest2) =
        (d :: rest2).foldl (fun a x => max a x.time) f0.time := rfl
    have e2 : timesMax (d :: rest2) =
        rest2.foldl (fun a x => max a x.time) d.time := rfl
    rw [e1, List.foldl_cons, max_eq_right h01, ← e2, hstep,
      List.getLast_cons (List.cons_ne_nil d rest2)]

/-- C5: in `calculate_minimum_tma_distance` (stated for a time-sorted
following track, the invariant `group_detections_by_callsign` establishes),
the following track is restricted to points strictly after the TWR
reference time and the preceding track to points inside the geographic
filter box, with altitude unknown or at most 6000 ft, and with time inside
the restricted following points' time span; if either restricted set is
empty the result is `none` (undefined, never zero); and any returned value
is the global minimum planar distance over all cross pairs at most 30 s
apart, paired with the time of a minimising following point, with a value
guaranteed whenever such a pair exists. -/
theorem calculate_minimum_tma_distance_spec (dist2d : ℚ → ℚ → ℚ → ℚ → ℚ)
    (prec foll : List DataItem) (t : ℚ)
    (hsorted : foll.Pairwise (fun a b : DataItem => a.time ≤ b.time)) :
    (tma_following_restricted foll t = [] →
      calculate_minimum_tma_distance dist2d prec foll t = none) ∧
    (tma_preceding_restricted prec (timesMin (tma_following_restricted foll t))
        (timesMax (tma_following_restricted foll t)) = [] →
      calculate_minimum_tma_distance dist2d prec foll t = none) ∧
    (∀ m mt, calculate_minimum_tma_distance dist2d prec foll t = some (m, mt) →
      ∃ pd ∈ tma_preceding_restricted prec (timesMin (tma_following_restricted foll t))
          (timesMax (tma_following_restricted foll t)),
        ∃ fd ∈ tma_following_restricted foll t,
          |pd.time - fd.time| ≤ 30 ∧ dist2d pd.x pd.y fd.x fd.y = m ∧ mt = fd.time ∧
          ∀ pd2 ∈ tma_preceding_restricted prec (timesMin (tma_following_restricted foll t))
              (timesMax (tma_following_restricted foll t)),
            ∀ fd2 ∈ tma_following_restricted foll t,
              |pd2.time - fd2.time| ≤ 30 → m ≤ dist2d pd2.x pd2.y fd2.x fd2.y) ∧
    ((∃ pd ∈ tma_preceding_restricted prec (timesMin (tma_following_restricted foll t))
          (timesMax (tma_following_restricted foll t)),
        ∃ fd ∈ tma_following_restricted foll t, |pd.time - fd.time| ≤ 30) →
      ∃ m mt, calculate_minimum_tma_distance dist2d prec foll t = some (m, mt)) := by
  rcases hff : tma_following_restricted foll t with _ | ⟨f0, rest⟩
  · have hres : calculate_minimum_tma_distance dist2d prec foll t = none := by
      unfold calculate_minimum_tma_distance
      rw [hff]
    refine ⟨fun _ => hres, fun _ => hres, ?_, ?_⟩
    · intro m mt hm
      rw [hres] at hm
      cases hm
    · rintro ⟨pd, hpd, fd, hfd, hv⟩
      simp at hfd
  · have hsff : (f0 :: rest).Pairwise (fun a b : DataItem => a.time ≤ b.time) := by
      have hsub : (tma_following_restricted foll t).Pairwise
          (fun a b : DataItem => a.time ≤ b.time) := by
        unfold tma_following_restricted
        exact List.Pairwise.sublist (List.filter_sublist foll) hsorted
      rwa [hff] at hsub
    have hws : timesMin (f0 :: rest) = f0.time := timesMin_sorted_head f0 rest hsff
    have hwe : timesMax (f0 :: rest) =
        (List.getLast (f0 :: rest) (List.cons_ne_nil f0 rest)).time :=
      timesMax_sorted_getLast rest f0 hsff
    have hres : calculate_minimum_tma_distance dist2d prec foll t =
        (if (tma_preceding_restricted prec f0.time
              (List.getLast (f0 :: rest) (List.cons_ne_nil f0 rest)).time).isEmpty then none
         else (f0 :: rest).foldl
            (fun acc fd => (tma_preceding_restricted prec f0.time
              (List.getLast (f0 :: rest) (List.cons_ne_nil f0 rest)).time).foldl
                (fun a pd => tma_pair_step dist2d a pd fd) acc) none) := by
      unfold calculate_minimum_tma_distance
      rw [hff]
    rw [hws, hwe]
    refine ⟨?_, ?_, ?_, ?_⟩
    · intro habs
      exact absurd habs (List.cons_ne_nil f0 rest)
    · intro hpf0
      rw [hres, if_pos (List.isEmpty_iff.mpr hpf0)]
    · intro m mt hm
      rw [hres] at hm
      by_cases hemp : (tma_preceding_restricted prec f0.time
          (List.getLast (f0 :: rest) (List.cons_ne_nil f0 rest)).time).isEmpty
      · rw [if_pos hemp] at hm
        cases hm
      · rw [if_neg hemp, tma_double_fold_eq_pairs] at hm
        rcases tma_fold_attained dist2d _ none m mt hm with hacc | ⟨pr, hprL, hv, hdist, ht⟩
        · cases hacc
        · rcases pr with ⟨pd, fd⟩
          obtain ⟨hpd, hfd⟩ := (mem_tma_pairs _ (f0 :: rest) pd fd).mp hprL
          refine ⟨pd, hpd, fd, hfd, not_lt.mp hv, hdist, ht, ?_⟩
          intro pd2 hpd2 fd2 hfd2 hv2
          exact tma_fold_le_valid dist2d _ none m mt hm (pd2, fd2)
            ((mem_tma_pairs _ (f0 :: rest) pd2 fd2).mpr ⟨hpd2, hfd2⟩) (not_lt.mpr hv2)
    · rintro ⟨pd, hpd, fd, hfd, hv⟩
      rw [hres]
      by_cases hemp : (tma_preceding_restricted prec f0.time
          (List.getLast (f0 :: rest) (List.cons_ne_nil f0 rest)).time).isEmpty
      · rw [List.isEmpty_iff.mp hemp] at hpd
        simp at hpd
      · rw [if_neg hemp, tma_double_fold_eq_pairs]
        rcases hr : ((f0 :: rest).flatMap (fun fd2 => (tma_preceding_restricted prec f0.time
            (List.getLast (f0 :: rest) (List.cons_ne_nil f0 rest)).time).map
              (fun pd2 => (pd2, fd2)))).foldl
            (fun a pr => tma_pair_step dist2d a pr.1 pr.2) none with _ | ⟨m, mt⟩
        · exfalso
          have hfar := ((tma_fold_none_iff dist2d _ none).mp hr).2 (pd, fd)
            ((mem_tma_pairs _ (f0 :: rest) pd fd).mpr ⟨hpd, hfd⟩)
          exact absurd hfar (not_lt.mpr hv)
        · exact ⟨m, mt, hr⟩

/-- C5 witness: the following track has one point at time 20, strictly
after the reference time 10, but the preceding point lies outside the
geographic filter box, so the restricted preceding set is empty and the TMA
distance is undefined (`none`). -/
theorem calculate_minimum_tma_distance_spec_witness :
    List.Pairwise (fun a b : DataItem => a.time ≤ b.time) [mkDet 20 1] ∧
    tma_preceding_restricted [mkDet 5 1]
      (timesMin (tma_following_restricted [mkDet 20 1] 10))
      (timesMax (tma_following_restricted [mkDet 20 1] 10)) = [] ∧
    calculate_minimum_tma_distance distLat [mkDet 5 1] [mkDet 20 1] 10 = none :=
  ⟨List.pairwise_singleton _ _,
    by decide,
    (calculate_minimum_tma_distance_spec distLat [mkDet 5 1] [mkDet 20 1] 10
      (List.pairwise_singleton _ _)).2.1 (by decide)⟩
